import Mathlib

/-!
Verification of the proof-protocol SDK's recording pipeline against its
design description. The TypeScript sources are embedded shallowly: pure
logic becomes Lean functions, the middleware batching queue becomes an
explicit state-transition system, and the external collaborators (IPFS
node, AES-GCM cipher of the host crypto library, ledger RPC results) are
modelled as explicit inputs to the functions that consume their results.
-/

set_option maxHeartbeats 1000000

namespace ProofSDK

/-! ## Interception and batching layer (`ProofMiddleware`) -/

namespace ProofMiddleware

/-- Configuration options of `ProofMiddleware` that the recording decision and
the batching queue consume (`patterns`, `excludePatterns`, `batchSize`,
`batchInterval`); `none` models a field left `undefined` in JavaScript. -/
structure MiddlewareOptions where
  patterns : Option (List String) := none
  excludePatterns : Option (List String) := none
  batchSize : Option Nat := none
  batchInterval : Option Nat := none

/-- Wildcard matcher modelling the regular expression that
`ProofMiddleware.matchPattern` builds for a pattern containing `*`
(`new RegExp('^' + pattern.replace(/\x2a/g, '.' + '\x2a') + '$').test(path)`):
anchored at both ends, each `*` matches any, possibly empty, run of
characters, every other character matches itself (the patterns this
middleware is used with contain no other regex metacharacter). -/
def matchGlob : List Char → List Char → Bool
  | [], s => s.isEmpty
  | '*' :: ps, s => s.tails.any (fun suffix => matchGlob ps suffix)
  | _ :: _, [] => false
  | p :: ps, c :: cs => p == c && matchGlob ps cs

/-- Embedding of `ProofMiddleware.matchPattern`: a pattern containing `*` is
matched with anchored wildcard semantics; otherwise the path must equal the
pattern or start with it (`path === pattern || path.startsWith(pattern)`). -/
def matchPattern (path pat : String) : Bool :=
  if pat.toList.contains '*' then
    matchGlob pat.toList path.toList
  else
    path.toList == pat.toList || pat.toList.isPrefixOf path.toList

/-- Embedding of `ProofMiddleware.shouldRecord`: every exclude pattern is
checked first and any match refuses recording; then, when an include-pattern
list is configured, only a path matching one of its entries is recorded; with
no include-pattern list configured every remaining path is recorded. An
absent (`undefined`) list is skipped by the truthiness test in the source. -/
def shouldRecord (opts : MiddlewareOptions) (path : String) : Bool :=
  if (opts.excludePatterns.getD []).any (fun pat => matchPattern path pat) then
    false
  else
    match opts.patterns with
    | some pats => pats.any (fun pat => matchPattern path pat)
    | none => true

/-- State of the middleware's batching queue, together with the history of
batches handed to the asynchronous `client.batchRecord` call: `flushed`
records, in order, the snapshot each flush captured at the moment
`processBatch` copied and reset the queue
(`const batch = [...this.batchQueue]; this.batchQueue = []`). The entry
type is abstract: entries are the `{request, response, metadata}` objects
`addToBatch` constructs. -/
structure BatchState (α : Type) where
  batchQueue : List α
  flushed : List (List α)
  deriving DecidableEq, Repr

/-- Queue state of a freshly constructed middleware: empty queue, no flush
performed yet. -/
def initialBatchState (α : Type) : BatchState α := ⟨[], []⟩

/-- Effective flush threshold `this.options.batchSize || 100`: an absent or
zero (falsy) configured value falls back to the default of 100. -/
def effectiveBatchSize (opts : MiddlewareOptions) : Nat :=
  match opts.batchSize with
  | some n => if n = 0 then 100 else n
  | none => 100

/-- Embedding of `ProofMiddleware.processBatch`'s synchronous prefix: an
empty queue returns immediately (no flush happens); otherwise the queue is
copied and replaced by an empty one before the asynchronous
`client.batchRecord` submission, which receives the copied batch. -/
def processBatch {α : Type} (s : BatchState α) : BatchState α :=
  if s.batchQueue.isEmpty then s
  else { batchQueue := [], flushed := s.flushed ++ [s.batchQueue] }

/-- Embedding of `ProofMiddleware.addToBatch`: push the constructed entry,
then flush immediately when the queue has reached the effective batch size
(`if (this.batchQueue.length >= (this.options.batchSize || 100))`). -/
def addToBatch {α : Type} (opts : MiddlewareOptions) (s : BatchState α) (e : α) :
    BatchState α :=
  if effectiveBatchSize opts ≤ (s.batchQueue ++ [e]).length then
    processBatch { s with batchQueue := s.batchQueue ++ [e] }
  else
    { s with batchQueue := s.batchQueue ++ [e] }

/-- Embedding of one firing of the recurring timer installed by
`ProofMiddleware.startBatchProcessing`: the tick flushes only when the queue
is non-empty (`if (this.batchQueue.length > 0) this.processBatch()`). -/
def timerTick {α : Type} (s : BatchState α) : BatchState α :=
  if 0 < s.batchQueue.length then processBatch s else s

/-- One externally visible event of the batching layer: a completed
intercepted exchange being appended, or the interval timer firing. Because
the runtime is single-threaded and the drain-and-reset prefix of a flush is
synchronous, these are the atomic steps of the queue. -/
inductive BatchEvent (α : Type)
  | append (e : α)
  | tick

/-- Transition function of the batching queue over one event. -/
def stepBatch {α : Type} (opts : MiddlewareOptions) (s : BatchState α) :
    BatchEvent α → BatchState α
  | .append e => addToBatch opts s e
  | .tick => timerTick s

/-- Run of the batching queue over a sequence of events. -/
def runBatch {α : Type} (opts : MiddlewareOptions) (s : BatchState α)
    (evs : List (BatchEvent α)) : BatchState α :=
  evs.foldl (stepBatch opts) s

/-- The entries appended by a sequence of events, in order. -/
def appendedEntries {α : Type} : List (BatchEvent α) → List α
  | [] => []
  | .append e :: evs => e :: appendedEntries evs
  | .tick :: evs => appendedEntries evs

/-- All entries a queue state accounts for: those already handed to some
flush, in flush order, followed by those still queued. -/
def accountedEntries {α : Type} (s : BatchState α) : List α :=
  s.flushed.flatten ++ s.batchQueue

theorem processBatch_accounted {α : Type} (s : BatchState α) :
    accountedEntries (processBatch s) = accountedEntries s := by
  unfold processBatch accountedEntries
  split <;> simp

theorem timerTick_accounted {α : Type} (s : BatchState α) :
    accountedEntries (timerTick s) = accountedEntries s := by
  unfold timerTick
  split
  · exact processBatch_accounted s
  · rfl

theorem addToBatch_accounted {α : Type} (opts : MiddlewareOptions)
    (s : BatchState α) (e : α) :
    accountedEntries (addToBatch opts s e) = accountedEntries s ++ [e] := by
  unfold addToBatch
  split
  · rw [processBatch_accounted]
    simp [accountedEntries]
  · simp [accountedEntries]

theorem stepBatch_accounted {α : Type} (opts : MiddlewareOptions)
    (s : BatchState α) (ev : BatchEvent α) :
    accountedEntries (stepBatch opts s ev)
      = accountedEntries s ++ appendedEntries [ev] := by
  cases ev with
  | append e => simp [stepBatch, addToBatch_accounted, appendedEntries]
  | tick => simp [stepBatch, timerTick_accounted, appendedEntries]

theorem runBatch_accounted {α : Type} (opts : MiddlewareOptions)
    (evs : List (BatchEvent α)) (s : BatchState α) :
    accountedEntries (runBatch opts s evs)
      = accountedEntries s ++ appendedEntries evs := by
  induction evs generalizing s with
  | nil => simp [runBatch, appendedEntries]
  | cons ev evs ih =>
      have hstep := stepBatch_accounted opts s ev
      simp only [runBatch, List.foldl_cons] at *
      rw [ih (stepBatch opts s ev), hstep]
      cases ev <;> simp [appendedEntries]

theorem runBatch_appends_below_threshold {α : Type} (opts : MiddlewareOptions)
    (es : List α) (q : List α) (fl : List (List α))
    (h : q.length + es.length < effectiveBatchSize opts) :
    runBatch opts ⟨q, fl⟩ (es.map .append) = ⟨q ++ es, fl⟩ := by
  induction es generalizing q with
  | nil => simp [runBatch]
  | cons e es ih =>
      have hlen : ¬ effectiveBatchSize opts ≤ (q ++ [e]).length := by
        rw [List.length_append]
        simp only [List.length_cons, List.length_nil] at *
        omega
      have hstep : stepBatch opts (⟨q, fl⟩ : BatchState α) (.append e)
          = ⟨q ++ [e], fl⟩ := by
        show addToBatch opts ⟨q, fl⟩ e = _
        rw [addToBatch, if_neg hlen]
      have hrec := ih (q ++ [e]) (by
        rw [List.length_append]
        simp only [List.length_cons, List.length_nil] at *
        omega)
      simp only [List.map_cons, runBatch, List.foldl_cons] at *
      rw [hstep, hrec, List.append_assoc]
      simp

/-- C4: every flush drains and resets the batch queue synchronously — a
non-empty queue is captured whole as the flushed batch and replaced by an
empty queue in the same atomic step, before the asynchronous submission —
and consequently, over any interleaving of appends and timer ticks starting
from a fresh middleware, the flushed batches followed by the remaining queue
are exactly the appended entries in order: each entry is consumed by exactly
one flush (or still queued), never duplicated across two flushes and never
dropped. -/
theorem flush_drains_atomically_and_conserves (α : Type) :
    (∀ s : BatchState α, s.batchQueue ≠ [] →
        processBatch s = ⟨[], s.flushed ++ [s.batchQueue]⟩)
    ∧ (∀ (opts : MiddlewareOptions) (evs : List (BatchEvent α)),
        accountedEntries (runBatch opts (initialBatchState α) evs)
          = appendedEntries evs) := by
  constructor
  · intro s h
    rw [processBatch, if_neg]
    simpa using h
  · intro opts evs
    rw [runBatch_accounted]
    simp [initialBatchState, accountedEntries]

theorem flush_drains_atomically_and_conserves_witness :
    processBatch (⟨[0], []⟩ : BatchState Nat) = ⟨[], [[0]]⟩
    ∧ accountedEntries (runBatch {} (initialBatchState Nat)
        [.append 0, .append 1, .tick, .append 2])
      = appendedEntries [.append 0, .append 1, .tick, .append 2] :=
  ⟨(flush_drains_atomically_and_conserves Nat).1 ⟨[0], []⟩ (by decide),
   (flush_drains_atomically_and_conserves Nat).2 {}
     [.append 0, .append 1, .tick, .append 2]⟩

/-- C5: with a batch interval configured the queue has two flush triggers.
Appending the entry that brings the queue length to the effective batch size
(100 when `batchSize` is not configured) immediately flushes — the flushed
batch is the whole queue and the queue is empty afterwards — without any
timer involvement; appending fewer than `batchSize` entries triggers no flush
and a subsequent timer tick flushes them as exactly one batch, leaving the
queue empty; and a flush invoked on an empty queue is a no-op. -/
theorem flush_trigger_spec (α : Type) :
    (∀ (opts : MiddlewareOptions) (s : BatchState α) (e : α),
        s.batchQueue.length + 1 = effectiveBatchSize opts →
        addToBatch opts s e = ⟨[], s.flushed ++ [s.batchQueue ++ [e]]⟩)
    ∧ (∀ (opts : MiddlewareOptions) (es : List α), es ≠ [] →
        es.length < effectiveBatchSize opts →
        runBatch opts (initialBatchState α) (es.map .append) = ⟨es, []⟩
        ∧ runBatch opts (initialBatchState α) (es.map .append ++ [.tick])
            = ⟨[], [es]⟩)
    ∧ (∀ fl : List (List α), processBatch (⟨[], fl⟩ : BatchState α) = ⟨[], fl⟩)
    ∧ (∀ opts : MiddlewareOptions, opts.batchSize = none →
        effectiveBatchSize opts = 100) := by
  refine ⟨?_, ?_, ?_, ?_⟩
  · intro opts s e h
    have hcond : effectiveBatchSize opts ≤ (s.batchQueue ++ [e]).length := by
      simp only [List.length_append, List.length_cons, List.length_nil]
      omega
    have hne : ¬ (s.batchQueue ++ [e]).isEmpty = true := by
      simp
    rw [addToBatch, if_pos hcond, processBatch, if_neg hne]
  · intro opts es hne hlt
    have hfill : runBatch opts (initialBatchState α) (es.map .append)
        = ⟨es, []⟩ := by
      have := runBatch_appends_below_threshold opts es [] []
        (by simpa using hlt)
      simpa [initialBatchState] using this
    refine ⟨hfill, ?_⟩
    rw [runBatch, List.foldl_append]
    rw [show List.foldl (stepBatch opts) (initialBatchState α) (es.map .append)
          = runBatch opts (initialBatchState α) (es.map .append) from rfl, hfill]
    have hpos : 0 < es.length := List.length_pos.mpr hne
    simp [List.foldl_cons, stepBatch, timerTick, hpos, processBatch,
      List.isEmpty_iff, hne]
  · intro fl
    rfl
  · intro opts h
    simp [effectiveBatchSize, h]

theorem flush_trigger_spec_witness :
    addToBatch { batchSize := some 2 } (⟨[0], []⟩ : BatchState Nat) 1
        = ⟨[], [[0, 1]]⟩
    ∧ (runBatch { batchSize := some 2 } (initialBatchState Nat)
          ([5].map .append) = ⟨[5], []⟩
        ∧ runBatch { batchSize := some 2 } (initialBatchState Nat)
            ([5].map .append ++ [.tick]) = ⟨[], [[5]]⟩)
    ∧ processBatch (⟨[], [[7]]⟩ : BatchState Nat) = ⟨[], [[7]]⟩
    ∧ effectiveBatchSize {} = 100 :=
  ⟨(flush_trigger_spec Nat).1 { batchSize := some 2 } ⟨[0], []⟩ 1 (by decide),
   (flush_trigger_spec Nat).2.1 { batchSize := some 2 } [5] (by decide)
     (by decide),
   (flush_trigger_spec Nat).2.2.1 [[7]],
   (flush_trigger_spec Nat).2.2.2 {} rfl⟩

/-- The middleware configuration of the worked example: include patterns
containing only the wildcard pattern `/api/*` and exclude patterns containing
only `/health`. -/
def exampleOptions : MiddlewareOptions :=
  { patterns := some ["/api/*"], excludePatterns := some ["/health"] }

/-- C6: with excludePatterns `/health` and include patterns containing only
the wildcard pattern `/api/*`, the path `/api/users` is recorded while
`/health` and `/other` are not; and in general a path is recorded exactly
when no exclude pattern matches it and either no include-pattern list is
configured or some include pattern matches it. -/
theorem shouldRecord_spec :
    (shouldRecord exampleOptions "/api/users" = true
      ∧ shouldRecord exampleOptions "/health" = false
      ∧ shouldRecord exampleOptions "/other" = false)
    ∧ (∀ (opts : MiddlewareOptions) (path : String),
        shouldRecord opts path = true ↔
          ((∀ pat ∈ opts.excludePatterns.getD [], matchPattern path pat = false)
            ∧ (opts.patterns = none
                ∨ ∃ pat ∈ opts.patterns.getD [], matchPattern path pat = true))) := by
  constructor
  · exact ⟨by decide, by decide, by decide⟩
  · intro opts path
    rw [shouldRecord]
    split
    case isTrue hex =>
      rw [List.any_eq_true] at hex
      obtain ⟨pat, hmem, hmatch⟩ := hex
      constructor
      · intro hfalse
        cases hfalse
      · rintro ⟨hall, -⟩
        have := hall pat hmem
        rw [hmatch] at this
        cases this
    case isFalse hex =>
      have hall : ∀ pat ∈ opts.excludePatterns.getD [],
          matchPattern path pat = false := by
        intro pat hmem
        by_contra hne
        exact hex (List.any_eq_true.mpr ⟨pat, hmem, by simpa using hne⟩)
      cases hpat : opts.patterns with
      | none => exact ⟨fun _ => ⟨hall, Or.inl rfl⟩, fun _ => rfl⟩
      | some pats =>
          constructor
          · intro h
            obtain ⟨pat, hmem, hmatch⟩ := List.any_eq_true.mp h
            exact ⟨hall, Or.inr ⟨pat, hmem, hmatch⟩⟩
          · rintro ⟨-, h | ⟨pat, hmem, hmatch⟩⟩
            · exact absurd h (by simp)
            · exact List.any_eq_true.mpr ⟨pat, hmem, hmatch⟩

theorem shouldRecord_spec_witness :
    shouldRecord { patterns := some ["/x"] } "/x" = true :=
  (shouldRecord_spec.2 { patterns := some ["/x"] } "/x").mpr (by decide)

end ProofMiddleware

/-! ## Archive adapter (`IPFSService`)

Strings are represented by their UTF-8 byte sequences (`List Nat`, each
element below 256), so that the plaintext payload, the `ENCRYPTED_V2:` format
marker and the base64 text of the sealed blob all live in one type, exactly
as they are all JavaScript strings in the source. -/

namespace IPFSService

/-- ASCII codes of the standard base64 digit alphabet `A-Z a-z 0-9 + /`, the
encoding used by `Buffer.toString('base64')` and `Buffer.from(_, 'base64')`. -/
def b64Alphabet : List Nat :=
  (List.range 26).map (fun i => i + 65) ++ (List.range 26).map (fun i => i + 97)
    ++ (List.range 10).map (fun i => i + 48) ++ [43, 47]

/-- ASCII code of the base64 digit encoding a sextet value. -/
def sextetToByte (s : Nat) : Nat := b64Alphabet.getD s 0

/-- Sextet value of a base64 digit byte (inverse alphabet lookup). -/
def byteToSextet (c : Nat) : Nat := b64Alphabet.indexOf c

/-- Base64 encoding of a byte sequence, producing the ASCII codes of the
encoded text with `=` (61) padding, three input bytes per four output
digits. -/
def b64Encode : List Nat → List Nat
  | a :: b :: c :: rest =>
      sextetToByte (a / 4) :: sextetToByte (a % 4 * 16 + b / 16)
        :: sextetToByte (b % 16 * 4 + c / 64) :: sextetToByte (c % 64)
        :: b64Encode rest
  | [a, b] =>
      [sextetToByte (a / 4), sextetToByte (a % 4 * 16 + b / 16),
       sextetToByte (b % 16 * 4), 61]
  | [a] => [sextetToByte (a / 4), sextetToByte (a % 4 * 16), 61, 61]
  | [] => []

/-- Base64 decoding of an encoded text back to the byte sequence, honouring
`=` padding in the final quadruple. -/
def b64Decode : List Nat → List Nat
  | c1 :: c2 :: c3 :: c4 :: rest =>
      if c3 = 61 then
        [byteToSextet c1 * 4 + byteToSextet c2 / 16]
      else if c4 = 61 then
        [byteToSextet c1 * 4 + byteToSextet c2 / 16,
         byteToSextet c2 % 16 * 16 + byteToSextet c3 / 4]
      else
        (byteToSextet c1 * 4 + byteToSextet c2 / 16)
          :: (byteToSextet c2 % 16 * 16 + byteToSextet c3 / 4)
          :: (byteToSextet c3 % 4 * 64 + byteToSextet c4)
          :: b64Decode rest
  | _ => []

theorem byteToSextet_sextetToByte : ∀ s, s < 64 →
    byteToSextet (sextetToByte s) = s := by decide

theorem sextetToByte_ne_pad : ∀ s, s < 64 → sextetToByte s ≠ 61 := by decide

theorem b64Decode_b64Encode : ∀ bs : List Nat, (∀ b ∈ bs, b < 256) →
    b64Decode (b64Encode bs) = bs
  | [], _ => rfl
  | [a], h => by
      have ha : a < 256 := h a (by simp)
      have h1 := byteToSextet_sextetToByte (a / 4) (by omega)
      have h2 := byteToSextet_sextetToByte (a % 4 * 16) (by omega)
      show b64Decode [sextetToByte (a / 4), sextetToByte (a % 4 * 16), 61, 61]
        = [a]
      simp only [b64Decode, if_true, h1, h2, List.cons.injEq, and_true]
      omega
  | [a, b], h => by
      have ha : a < 256 := h a (by simp)
      have hb : b < 256 := h b (by simp)
      have h1 := byteToSextet_sextetToByte (a / 4) (by omega)
      have h2 := byteToSextet_sextetToByte (a % 4 * 16 + b / 16) (by omega)
      have h3 := byteToSextet_sextetToByte (b % 16 * 4) (by omega)
      have hne3 := sextetToByte_ne_pad (b % 16 * 4) (by omega)
      show b64Decode [sextetToByte (a / 4), sextetToByte (a % 4 * 16 + b / 16),
          sextetToByte (b % 16 * 4), 61] = [a, b]
      simp only [b64Decode, if_neg hne3, if_true, h1, h2, h3,
        List.cons.injEq, and_true]
      omega
  | a :: b :: c :: rest, h => by
      have ha : a < 256 := h a (by simp)
      have hb : b < 256 := h b (by simp)
      have hc : c < 256 := h c (by simp)
      have hrest : ∀ x ∈ rest, x < 256 := fun x hx => h x (by simp [hx])
      have h1 := byteToSextet_sextetToByte (a / 4) (by omega)
      have h2 := byteToSextet_sextetToByte (a % 4 * 16 + b / 16) (by omega)
      have h3 := byteToSextet_sextetToByte (b % 16 * 4 + c / 64) (by omega)
      have h4 := byteToSextet_sextetToByte (c % 64) (by omega)
      have hne3 := sextetToByte_ne_pad (b % 16 * 4 + c / 64) (by omega)
      have hne4 := sextetToByte_ne_pad (c % 64) (by omega)
      have ih := b64Decode_b64Encode rest hrest
      show b64Decode (sextetToByte (a / 4)
            :: sextetToByte (a % 4 * 16 + b / 16)
            :: sextetToByte (b % 16 * 4 + c / 64)
            :: sextetToByte (c % 64)
            :: b64Encode rest)
          = a :: b :: c :: rest
      simp only [b64Decode, if_neg hne3, if_neg hne4, h1, h2, h3, h4, ih,
        List.cons.injEq, and_true]
      omega

/-- CTR keystream application, the encryption core of AES-256-GCM as driven
by `crypto.createCipheriv('aes-256-gcm', keyBuffer, iv)`: byte i of the
input is XORed with keystream byte `ks i`. The block cipher producing the
keystream from the sha256-derived key and the nonce is external crypto
library code and enters the model as the function `ks`; the CTR structure —
and with it the fact that decryption is the same XOR pass — is what the
round-trip property rests on. -/
def ctrCryptFrom (ks : Nat → Nat) : Nat → List Nat → List Nat
  | _, [] => []
  | i, b :: bs => (b ^^^ ks i % 256) :: ctrCryptFrom ks (i + 1) bs

theorem ctrCryptFrom_ctrCryptFrom (ks : Nat → Nat) :
    ∀ (bs : List Nat) (i : Nat),
      ctrCryptFrom ks i (ctrCryptFrom ks i bs) = bs
  | [], _ => rfl
  | b :: bs, i => by
      simp only [ctrCryptFrom, ctrCryptFrom_ctrCryptFrom ks bs (i + 1),
        List.cons.injEq, and_true]
      exact Nat.xor_cancel_right _ _

theorem ctrCryptFrom_lt (ks : Nat → Nat) :
    ∀ (bs : List Nat) (i : Nat), (∀ b ∈ bs, b < 256) →
      ∀ y ∈ ctrCryptFrom ks i bs, y < 256
  | [], _, _ => by simp [ctrCryptFrom]
  | b :: bs, i, h => by
      simp only [ctrCryptFrom, List.mem_cons]
      rintro y (rfl | hy)
      · have hb : b < 2 ^ 8 := by
          have := h b (by simp)
          omega
        have hk : ks i % 256 < 2 ^ 8 := by
          have := Nat.mod_lt (ks i) (y := 256) (by omega)
          omega
        have := Nat.xor_lt_two_pow hb hk
        omega
      · exact ctrCryptFrom_lt ks bs (i + 1) (fun x hx => h x (by simp [hx])) y hy

theorem ctrCryptFrom_length (ks : Nat → Nat) :
    ∀ (bs : List Nat) (i : Nat), (ctrCryptFrom ks i bs).length = bs.length
  | [], _ => rfl
  | _ :: bs, i => by
      simp only [ctrCryptFrom, List.length_cons, ctrCryptFrom_length ks bs (i + 1)]

/-- ASCII bytes of the legacy format marker string (the nine letters of
ENCRYPTED followed by a colon) recognised by `decrypt` for backwards
compatibility. -/
def ENCRYPTED_MARKER : List Nat := [69, 78, 67, 82, 89, 80, 84, 69, 68, 58]

/-- ASCII bytes of the AES-256-GCM format marker string (ENCRYPTED_V2
followed by a colon) prepended by `encrypt` and recognised by `decrypt`. -/
def ENCRYPTED_V2_MARKER : List Nat :=
  [69, 78, 67, 82, 89, 80, 84, 69, 68, 95, 86, 50, 58]

/-- Model of the AES-256-GCM primitive of the host crypto library under the
sha256-derived key: `ks iv i` is keystream byte i for nonce `iv`, and
`tag iv ct` is the 16-byte authentication tag, computed — as the real GHASH
is — deterministically from the key, the nonce and the ciphertext. Both are
arbitrary functions; no property of AES beyond this CTR-plus-tag structure
is assumed by any proof below. -/
structure GCMModel where
  ks : List Nat → Nat → Nat
  tag : List Nat → List Nat → List Nat

/-- Embedding of `IPFSService.encrypt`: with no encryption key configured it
fails with the fatal configuration error; otherwise it seals the content
with AES-256-GCM — the ciphertext is the CTR keystream pass under the
derived key and the fresh 12-byte nonce `iv`, and the output string is
`nonce ++ authTag ++ ciphertext` base64-encoded behind the `ENCRYPTED_V2:`
format marker. -/
def encrypt (gcm : GCMModel) (keyConfigured : Bool) (iv content : List Nat) :
    Except String (List Nat) :=
  if !keyConfigured then
    .error "Encryption key not configured"
  else
    .ok (ENCRYPTED_V2_MARKER
      ++ b64Encode (iv ++ gcm.tag iv (ctrCryptFrom (gcm.ks iv) 0 content)
        ++ ctrCryptFrom (gcm.ks iv) 0 content))

/-- Tail of `IPFSService.decrypt` for a V2-marked payload, after base64
decoding: split `combined` into the 12-byte nonce, the 16-byte tag and the
ciphertext (`subarray(0, 12)`, `subarray(12, 28)`, `subarray(28)`),
authenticate the tag — the GCM decipher recomputes it and `final()` throws
on mismatch — and run the CTR keystream pass to recover the plaintext. -/
def decryptV2Body (gcm : GCMModel) (combined : List Nat) :
    Except String (List Nat) :=
  if gcm.tag (combined.take 12) (combined.drop 28) = (combined.drop 12).take 16
  then
    .ok (ctrCryptFrom (gcm.ks (combined.take 12)) 0 (combined.drop 28))
  else
    .error "Unsupported state or unable to authenticate data"

/-- Embedding of `IPFSService.decrypt`: requires a configured key; a payload
behind the legacy marker is merely base64-decoded; a payload behind the
`ENCRYPTED_V2:` marker is handed to the GCM opening step; unmarked content
is returned unchanged. -/
def decrypt (gcm : GCMModel) (keyConfigured : Bool) (content : List Nat) :
    Except String (List Nat) :=
  if !keyConfigured then
    .error "Encryption key not configured"
  else if ENCRYPTED_MARKER.isPrefixOf content then
    .ok (b64Decode (content.drop ENCRYPTED_MARKER.length))
  else if ENCRYPTED_V2_MARKER.isPrefixOf content then
    decryptV2Body gcm (b64Decode (content.drop ENCRYPTED_V2_MARKER.length))
  else
    .ok content

/-- Content preparation of `IPFSService.upload`: the byte string handed to
`this.client.add`. The guard is the source's
`if (options.encrypt && process.env.ENCRYPTION_KEY)`: encryption runs only
when the option is set AND a key is configured; in every other case —
including encryption requested while no key is configured — the plaintext
serialization is uploaded unchanged and no error is raised. -/
def upload (gcm : GCMModel) (keyConfigured : Bool) (iv : List Nat)
    (encryptOpt : Bool) (content : List Nat) : Except String (List Nat) :=
  if encryptOpt && keyConfigured then encrypt gcm keyConfigured iv content
  else .ok content

/-- Content post-processing of `IPFSService.retrieve`: `stored` is the byte
stream the storage node returns for the locator; decryption runs only when
the `decrypt` option is set and a key is configured (guard
`options.decrypt && process.env.ENCRYPTION_KEY`). The final
JSON-parse-or-return-string step of the host language is external; payloads
are compared as their serialized bytes. -/
def retrieve (gcm : GCMModel) (keyConfigured : Bool) (decryptOpt : Bool)
    (stored : List Nat) : Except String (List Nat) :=
  if decryptOpt && keyConfigured then decrypt gcm keyConfigured stored
  else .ok stored

/-- Embedding of `IPFSService.uploadBatch`: records are processed in
consecutive chunks of 5 (`records.slice(i, i + 5)` with the loop index
advancing by 5); each chunk is uploaded by
`Promise.all(batch.map(record => this.upload(record)))`, whose result array
preserves the chunk's order, and is appended to the running result list.
The per-record upload — an I/O call against the storage node returning an
upload result — is abstracted as `up`. -/
def uploadBatch {α β : Type} (up : α → β) (records : List α) : List β :=
  if h : records.isEmpty then []
  else (records.take 5).map up ++ uploadBatch up (records.drop 5)
termination_by records.length
decreasing_by
  simp only [List.length_drop]
  have hne : records ≠ [] := by simpa [List.isEmpty_iff] using h
  have := List.length_pos.mpr hne
  omega

theorem isPrefixOf_append_self : ∀ l rest : List Nat,
    l.isPrefixOf (l ++ rest) = true
  | [], _ => by simp
  | a :: l, rest => by
      simp only [List.cons_append, List.isPrefixOf_cons₂, beq_self_eq_true,
        Bool.true_and]
      exact isPrefixOf_append_self l rest

theorem legacy_marker_not_prefix_of_v2 (rest : List Nat) :
    ENCRYPTED_MARKER.isPrefixOf (ENCRYPTED_V2_MARKER ++ rest) = false := rfl

/-- C1: an archive upload invoked with encryption requested but no
encryption key configured does NOT fail — the guard
`options.encrypt && process.env.ENCRYPTION_KEY` silently skips encryption
and the plaintext payload is handed to storage unchanged. The fatal
configuration error the design calls for does exist in `encrypt`, but it is
unreachable from `upload`, whose guard already requires the key to be
present. -/
theorem upload_encrypt_without_key_uploads_plaintext (gcm : GCMModel)
    (iv content : List Nat) :
    upload gcm false iv true content = .ok content
    ∧ encrypt gcm false iv content = .error "Encryption key not configured" :=
  ⟨rfl, rfl⟩

/-- C7: with a configured encryption key, retrieving with decrypt enabled
what upload stored with encrypt enabled yields exactly the original payload
bytes: the AES-256-GCM seal (fresh 12-byte nonce, nonce ++ 16-byte auth tag
++ ciphertext, base64 behind the `ENCRYPTED_V2:` marker) composed with its
decryption is the identity. The hypotheses record the runtime's guarantees:
the nonce is 12 random bytes, payload and nonce are byte sequences, and the
GCM tag is 16 bytes. -/
theorem upload_retrieve_roundtrip (gcm : GCMModel) (iv content : List Nat)
    (hivlen : iv.length = 12) (hiv : ∀ b ∈ iv, b < 256)
    (hcontent : ∀ b ∈ content, b < 256)
    (htaglen : ∀ ivx ct, (gcm.tag ivx ct).length = 16)
    (htagbytes : ∀ ivx ct, ∀ b ∈ gcm.tag ivx ct, b < 256) :
    (upload gcm true iv true content).bind (retrieve gcm true true)
      = .ok content := by
  have hctbytes : ∀ b ∈ ctrCryptFrom (gcm.ks iv) 0 content, b < 256 :=
    ctrCryptFrom_lt (gcm.ks iv) content 0 hcontent
  have hall : ∀ b ∈ iv ++ gcm.tag iv (ctrCryptFrom (gcm.ks iv) 0 content)
      ++ ctrCryptFrom (gcm.ks iv) 0 content, b < 256 := by
    intro b hb
    simp only [List.mem_append] at hb
    rcases hb with (hb | hb) | hb
    · exact hiv b hb
    · exact htagbytes _ _ b hb
    · exact hctbytes b hb
  show decrypt gcm true (ENCRYPTED_V2_MARKER
      ++ b64Encode (iv ++ gcm.tag iv (ctrCryptFrom (gcm.ks iv) 0 content)
        ++ ctrCryptFrom (gcm.ks iv) 0 content)) = .ok content
  rw [decrypt, if_neg (by simp), if_neg (by
      rw [legacy_marker_not_prefix_of_v2]
      simp),
    if_pos (isPrefixOf_append_self _ _), List.drop_left,
    b64Decode_b64Encode _ hall, decryptV2Body]
  have htake12 : (iv ++ gcm.tag iv (ctrCryptFrom (gcm.ks iv) 0 content)
      ++ ctrCryptFrom (gcm.ks iv) 0 content).take 12
      = iv := by
    rw [List.append_assoc]
    exact List.take_left' hivlen
  have hdrop28 : (iv ++ gcm.tag iv (ctrCryptFrom (gcm.ks iv) 0 content)
      ++ ctrCryptFrom (gcm.ks iv) 0 content).drop 28
      = ctrCryptFrom (gcm.ks iv) 0 content := by
    refine List.drop_left' ?_
    rw [List.length_append, hivlen, htaglen]
  rw [htake12, hdrop28]
  have hdrop12take16 : ((iv ++ gcm.tag iv (ctrCryptFrom (gcm.ks iv) 0 content)
      ++ ctrCryptFrom (gcm.ks iv) 0 content).drop 12).take 16
      = gcm.tag iv (ctrCryptFrom (gcm.ks iv) 0 content) := by
    rw [List.append_assoc, List.drop_left' hivlen]
    exact List.take_left' (htaglen _ _)
  rw [hdrop12take16, if_pos rfl, ctrCryptFrom_ctrCryptFrom]

theorem upload_retrieve_roundtrip_witness :
    (upload ⟨fun _ _ => 0, fun _ _ => List.replicate 16 0⟩ true
        (List.replicate 12 0) true [80, 82, 79, 79, 70]).bind
      (retrieve ⟨fun _ _ => 0, fun _ _ => List.replicate 16 0⟩ true true)
      = .ok [80, 82, 79, 79, 70] :=
  upload_retrieve_roundtrip ⟨fun _ _ => 0, fun _ _ => List.replicate 16 0⟩
    (List.replicate 12 0) [80, 82, 79, 79, 70]
    (by decide) (by decide) (by decide)
    (fun _ _ => by simp)
    (fun _ _ b hb => by
      rw [List.eq_of_mem_replicate hb]
      omega)

/-- C10: the chunked batch upload returns exactly one upload result per
input payload and in input order — it coincides with the plain map of the
per-record upload over the whole input list, independent of the chunking
into windows of at most 5 concurrent operations. -/
theorem uploadBatch_eq_map {α β : Type} (up : α → β) (records : List α) :
    uploadBatch up records = records.map up := by
  rw [uploadBatch]
  split
  next h =>
    have : records = [] := by simpa [List.isEmpty_iff] using h
    simp [this]
  next h =>
    rw [uploadBatch_eq_map up (records.drop 5), ← List.map_append,
      List.take_append_drop]
termination_by records.length
decreasing_by
  simp only [List.length_drop]
  rename_i hne
  have : records ≠ [] := by simpa [List.isEmpty_iff] using hne
  have := List.length_pos.mpr this
  omega

end IPFSService

/-! ## Recording orchestrator (`ProofClient`)

The ledger RPC boundary (ethers.js contract calls, transaction confirmation,
log parsing) is external; its results — the confirmation receipt with its
hash, block number, gas figures and log entries, and the outcome of
`interface.parseLog` on each log — enter the model as data consumed by the
embedded receipt-assembly and event-scan logic. -/

namespace ProofClient

/-- The V3 privacy levels of `VisibilityLevel` in `types.ts`. -/
inductive VisibilityLevel
  | PUBLIC
  | PRIVATE
  | SHARED
  deriving DecidableEq, Repr

/-- Numeric enum value (PUBLIC = 0, PRIVATE = 1, SHARED = 2) as passed to
the registry contract. -/
def VisibilityLevel.toNat : VisibilityLevel → Nat
  | .PUBLIC => 0
  | .PRIVATE => 1
  | .SHARED => 2

/-- Result of `this.proofRegistry.interface.parseLog(log)` on one
confirmation log entry, as far as the pipelines consume it: the event name
and the `args.recordId` field; `recordId = none` models an absent
(undefined) field. -/
structure ParsedLog where
  name : String
  recordId : Option String
  deriving DecidableEq, Repr

/-- One entry of `receipt.logs`; `parsed = none` models a log entry the
registry interface cannot parse (`parseLog` throws and the scan callback
returns false). -/
structure LogEntry where
  parsed : Option ParsedLog
  deriving DecidableEq, Repr

/-- Embedding of the event scan in `ProofClient.record` (step 9):
`receipt.logs.find(log => parseLog(log)?.name === 'RecordStored')`. -/
def findRecordStoredEvent (logs : List LogEntry) : Option LogEntry :=
  logs.find? (fun log =>
    match log.parsed with
    | some p => p.name == "RecordStored"
    | none => false)

/-- Embedding of the recordId extraction in `ProofClient.record`:
`event ? parseLog(event)?.args.recordId || tx.hash : tx.hash` — the found
entry's parsed recordId when it is present and truthy (a non-empty string),
the submitted transaction's hash otherwise. -/
def singleRecordId (logs : List LogEntry) (txHash : String) : String :=
  match findRecordStoredEvent logs with
  | some ev =>
    match ev.parsed with
    | some p =>
      match p.recordId with
      | some r => if r = "" then txHash else r
      | none => txHash
    | none => txHash
  | none => txHash

/-- Client configuration fields consumed by the embedded pipeline logic,
after the constructor's defaulting (`autoApprove: config.autoApprove !==
false`, network default amoy, gateway default ipfs.io). -/
structure ClientConfig where
  network : String := "amoy"
  ipfsGateway : String := "https://ipfs.io/ipfs/"
  certificateBaseUrl : String := ""
  autoApprove : Bool := true
  deriving DecidableEq, Repr

/-- Embedding of `ProofClient.getExplorerUrl`: network-keyed lookup of the
transaction-explorer URL (an unknown network key yields undefined; modelled
as the empty string). -/
def getExplorerUrl (network txHash : String) : String :=
  if network = "amoy" then "https://amoy.polygonscan.com/tx/" ++ txHash
  else if network = "polygon" then "https://polygonscan.com/tx/" ++ txHash
  else if network = "local" then "http://localhost:3000/tx/" ++ txHash
  else ""

/-- The confirmation data of an anchor transaction as returned by
`tx.wait()`: hash, block number, gas figures and emitted logs. External
ledger output, consumed by the receipt assembly. -/
structure TxReceiptData where
  hash : String
  blockNumber : Nat
  gasUsed : Nat
  gasPrice : Nat
  logs : List LogEntry
  deriving DecidableEq, Repr

/-- The consumer-facing proof receipt assembled by the pipelines. Costs are
modelled numerically: `costProofTokens` is the PROOF token cost the source
renders into the `cost.proofTokens` string, and `costGasWei` the
`gasUsed * gasPrice` product it formats into `cost.gasInPOL`. -/
structure ProofReceipt where
  recordId : String
  transactionHash : String
  blockNumber : Nat
  timestamp : Nat
  gasUsed : Nat
  explorerUrl : String
  certificateUrl : String
  ipfsUrl : String
  costProofTokens : Nat
  costGasWei : Nat
  deriving DecidableEq, Repr

/-- Options of `ProofClient.record` consumed by the anchor step; `none`
models an `undefined` visibility. -/
structure RecordOptions where
  visibility : Option VisibilityLevel := none
  deriving DecidableEq, Repr

/-- Embedding of step 7 of `ProofClient.record`:
`options.visibility !== undefined ? options.visibility :
VisibilityLevel.PUBLIC`. -/
def resolveVisibility (v : Option VisibilityLevel) : VisibilityLevel :=
  v.getD .PUBLIC

/-- Argument tuple of the `storeAPIRecord` anchor transaction. -/
structure AnchorArgs where
  requestHash : String
  responseHash : String
  ipfsHash : String
  visibility : Nat
  deriving DecidableEq, Repr

/-- The anchor transaction submitted by `ProofClient.record` (step 8), for
the computed fingerprints and archive locator and the resolved
visibility. -/
def recordAnchorArgs (requestHash responseHash ipfsHash : String)
    (opts : RecordOptions) : AnchorArgs :=
  { requestHash := requestHash
    responseHash := responseHash
    ipfsHash := ipfsHash
    visibility := (resolveVisibility opts.visibility).toNat }

/-- Receipt assembly of `ProofClient.record` (steps 9-11): recordId from the
log scan with transaction-hash fallback, single-record price of 10 PROOF,
gas cost `gasUsed * gasPrice`. -/
def mkRecordReceipt (cfg : ClientConfig) (rcpt : TxReceiptData)
    (txHash : String) (startTime : Nat) (certificateUrl ipfsHash : String) :
    ProofReceipt :=
  { recordId := singleRecordId rcpt.logs txHash
    transactionHash := rcpt.hash
    blockNumber := rcpt.blockNumber
    timestamp := startTime
    gasUsed := rcpt.gasUsed
    explorerUrl := getExplorerUrl cfg.network rcpt.hash
    certificateUrl := certificateUrl
    ipfsUrl := cfg.ipfsGateway ++ ipfsHash
    costProofTokens := 10
    costGasWei := rcpt.gasUsed * rcpt.gasPrice }

/-- Receipt assembly of `ProofClient.batchRecord`: the recordId is the
confirmation's transaction hash (`recordId: receipt.hash`) — the
confirmation's logs, though present in `rcpt`, are not consulted — and the
token cost is `records.length * 8` (the bulk discount). -/
def mkBatchReceipt (cfg : ClientConfig) (rcpt : TxReceiptData)
    (recordCount : Nat) (now : Nat) (ipfsHash : String) : ProofReceipt :=
  { recordId := rcpt.hash
    transactionHash := rcpt.hash
    blockNumber := rcpt.blockNumber
    timestamp := now
    gasUsed := rcpt.gasUsed
    explorerUrl := getExplorerUrl cfg.network rcpt.hash
    certificateUrl := cfg.certificateBaseUrl ++ "batch/" ++ rcpt.hash
    ipfsUrl := cfg.ipfsGateway ++ ipfsHash
    costProofTokens := recordCount * 8
    costGasWei := rcpt.gasUsed * rcpt.gasPrice }

/-- External calls a pipeline run performs, in order, as far as the claims
about step ordering and skipping are concerned. -/
inductive PipelineStep
  | uploadArchive
  | readRecordPrice
  | readAllowance
  | approveMax
  | submitAnchor
  | awaitConfirmation
  | buildCertificate
  deriving DecidableEq, Repr

/-- Embedding of `ProofClient.ensureTokenApproval`: read the record price
and the current allowance, and issue a MaxUint256 approval transaction only
when the allowance is below `recordPrice * recordCount`. -/
def ensureTokenApprovalSteps (recordPrice allowance recordCount : Nat) :
    List PipelineStep :=
  [.readRecordPrice, .readAllowance]
    ++ (if allowance < recordPrice * recordCount then [.approveMax] else [])

/-- External-call sequence of `ProofClient.record` after response capture:
archive upload, then — only when `config.autoApprove` is set — the
allowance step with unit count 1, then anchor submission, confirmation and
certificate build. -/
def recordPipelineSteps (cfg : ClientConfig) (recordPrice allowance : Nat) :
    List PipelineStep :=
  [.uploadArchive]
    ++ (if cfg.autoApprove then ensureTokenApprovalSteps recordPrice allowance 1
        else [])
    ++ [.submitAnchor, .awaitConfirmation, .buildCertificate]

/-- External-call sequence of `ProofClient.batchRecord`: archive upload,
then `ensureTokenApproval(records.length)` invoked unconditionally — the
`config.autoApprove` flag is not consulted on this path — then anchor
submission and confirmation. -/
def batchPipelineSteps (cfg : ClientConfig)
    (recordPrice allowance recordCount : Nat) : List PipelineStep :=
  [.uploadArchive]
    ++ ensureTokenApprovalSteps recordPrice allowance recordCount
    ++ [.submitAnchor, .awaitConfirmation]

/-- Output of one `ProofClient.record` run as a function of the captured
exchange data and the external responses: the submitted anchor argument
tuple together with the assembled receipt. -/
def recordRun (cfg : ClientConfig) (requestHash responseHash ipfsHash : String)
    (rcpt : TxReceiptData) (txHash : String) (startTime : Nat)
    (certificateUrl : String) (opts : RecordOptions) :
    AnchorArgs × ProofReceipt :=
  (recordAnchorArgs requestHash responseHash ipfsHash opts,
   mkRecordReceipt cfg rcpt txHash startTime certificateUrl ipfsHash)

/-- C2 counterexample: a batch confirmation whose logs contain a parseable
BatchRecordStored event carrying an assigned recordId still yields a batch
receipt whose recordId is the transaction hash — `batchRecord` never scans
the confirmation's logs, so the transaction identifier is used even though a
matching log entry exists there. -/
theorem batchReceipt_ignores_logs_counterexample :
    (mkBatchReceipt {} ⟨"0xabc", 5, 21000, 2,
        [⟨some ⟨"BatchRecordStored", some "0x2a"⟩⟩]⟩ 2 0 "QmX").recordId
      = "0xabc"
    ∧ (([⟨some ⟨"BatchRecordStored", some "0x2a"⟩⟩] : List LogEntry).any
        (fun log =>
          match log.parsed with
          | some p => p.name == "BatchRecordStored"
          | none => false)) = true
    ∧ ("0xabc" : String) ≠ "0x2a" :=
  ⟨rfl, by decide, by decide⟩

/-- C2 amended: in the single-record pipeline the confirmation's logs are
scanned for the RecordStored event and the assigned recordId extracted from
it, with the transaction hash as fallback when no matching entry is found
(or the matched entry carries no truthy recordId); the batch pipeline does
not scan the logs and always uses the confirmation's transaction hash as its
receipt's recordId. -/
theorem recordId_extraction_spec :
    (∀ (logs : List LogEntry) (txHash : String),
        findRecordStoredEvent logs = none → singleRecordId logs txHash = txHash)
    ∧ (∀ (logs : List LogEntry) (txHash : String) (ev : LogEntry)
        (p : ParsedLog) (r : String),
        findRecordStoredEvent logs = some ev → ev.parsed = some p →
        p.recordId = some r → r ≠ "" → singleRecordId logs txHash = r)
    ∧ (∀ (cfg : ClientConfig) (rcpt : TxReceiptData) (n now : Nat)
        (ipfsHash : String),
        (mkBatchReceipt cfg rcpt n now ipfsHash).recordId = rcpt.hash) := by
  refine ⟨?_, ?_, ?_⟩
  · intro logs txHash h
    rw [singleRecordId, h]
  · intro logs txHash ev p r hfind hp hr hne
    rw [singleRecordId]
    simp only [hfind, hp, hr, if_neg hne]
  · intro cfg rcpt n now ipfsHash
    rfl

theorem recordId_extraction_spec_witness :
    singleRecordId [] "0xtx" = "0xtx"
    ∧ singleRecordId [⟨some ⟨"RecordStored", some "0x01"⟩⟩] "0xtx" = "0x01" :=
  ⟨recordId_extraction_spec.1 [] "0xtx" rfl,
   recordId_extraction_spec.2.1 [⟨some ⟨"RecordStored", some "0x01"⟩⟩] "0xtx"
     ⟨some ⟨"RecordStored", some "0x01"⟩⟩ ⟨"RecordStored", some "0x01"⟩ "0x01"
     (by decide) rfl rfl (by decide)⟩

/-- C3 counterexample: with auto-approval disabled, the batch pipeline still
performs the whole ensure-spending-allowance step — price read, allowance
read and (allowance 0 being below price 10 × 3 records) the approval
transaction — before the anchor submission, because `batchRecord` invokes
`ensureTokenApproval` without consulting `config.autoApprove`. -/
theorem batch_approval_not_skipped_counterexample :
    batchPipelineSteps ⟨"amoy", "https://ipfs.io/ipfs/", "", false⟩ 10 0 3
      = [.uploadArchive, .readRecordPrice, .readAllowance, .approveMax,
         .submitAnchor, .awaitConfirmation] := by decide

/-- C3 amended: the single-record pipeline skips the ensure-allowance step
entirely when auto-approval is disabled; the batch pipeline performs it
unconditionally — its external-call sequence is independent of the
autoApprove setting and always contains the price and allowance reads. -/
theorem approval_skipping_spec :
    (∀ (cfg : ClientConfig) (price allowance : Nat), cfg.autoApprove = false →
        recordPipelineSteps cfg price allowance
          = [.uploadArchive, .submitAnchor, .awaitConfirmation,
             .buildCertificate])
    ∧ (∀ (cfg cfg' : ClientConfig) (price allowance n : Nat),
        batchPipelineSteps cfg price allowance n
          = batchPipelineSteps cfg' price allowance n)
    ∧ (∀ (cfg : ClientConfig) (price allowance n : Nat),
        PipelineStep.readRecordPrice ∈ batchPipelineSteps cfg price allowance n
        ∧ PipelineStep.readAllowance
            ∈ batchPipelineSteps cfg price allowance n) := by
  refine ⟨?_, ?_, ?_⟩
  · intro cfg price allowance h
    rw [recordPipelineSteps, h]
    rfl
  · intro _ _ _ _ _
    rfl
  · intro cfg price allowance n
    constructor <;> simp [batchPipelineSteps, ensureTokenApprovalSteps]

theorem approval_skipping_spec_witness :
    recordPipelineSteps ⟨"amoy", "https://ipfs.io/ipfs/", "", false⟩ 10 0
      = [.uploadArchive, .submitAnchor, .awaitConfirmation,
         .buildCertificate] :=
  approval_skipping_spec.1 ⟨"amoy", "https://ipfs.io/ipfs/", "", false⟩ 10 0 rfl

/-- C8: a batch receipt's token cost is the record count times the fixed
discounted per-record price of 8 PROOF, the single-record receipt carries
the fixed price of 10 PROOF, and for every positive record count the batch
cost is strictly below the count times the single-record price. -/
theorem batch_cost_spec :
    (∀ (cfg : ClientConfig) (rcpt : TxReceiptData) (n now : Nat)
        (ipfsHash : String),
        (mkBatchReceipt cfg rcpt n now ipfsHash).costProofTokens = n * 8)
    ∧ (∀ (cfg : ClientConfig) (rcpt : TxReceiptData) (txHash : String)
        (st : Nat) (cert ipfs : String),
        (mkRecordReceipt cfg rcpt txHash st cert ipfs).costProofTokens = 10)
    ∧ (∀ (cfg cfg' : ClientConfig) (rcpt rcpt' : TxReceiptData)
        (n now st : Nat) (ipfs txHash cert ipfs' : String), 0 < n →
        (mkBatchReceipt cfg rcpt n now ipfs).costProofTokens
          < n * (mkRecordReceipt cfg' rcpt' txHash st cert
              ipfs').costProofTokens) := by
  refine ⟨fun _ _ _ _ _ => rfl, fun _ _ _ _ _ _ => rfl, ?_⟩
  intro cfg cfg' rcpt rcpt' n now st ipfs txHash cert ipfs' hn
  show n * 8 < n * 10
  omega

theorem batch_cost_spec_witness :
    (mkBatchReceipt {} ⟨"0xb", 1, 0, 0, []⟩ 3 0 "Qm").costProofTokens
      < 3 * (mkRecordReceipt {} ⟨"0xb", 1, 0, 0, []⟩ "0xb" 0 "c"
          "Qm").costProofTokens :=
  batch_cost_spec.2.2 {} {} ⟨"0xb", 1, 0, 0, []⟩ ⟨"0xb", 1, 0, 0, []⟩
    3 0 0 "Qm" "0xb" "c" "Qm" (by decide)

/-- C9: a single-record run that leaves visibility unspecified is
indistinguishable from one with visibility explicitly set to PUBLIC: given
the same captured exchange and the same external responses, both submit
identical anchor transaction arguments (both resolve to the PUBLIC level)
and assemble identical receipts. -/
theorem visibility_default_spec (cfg : ClientConfig)
    (requestHash responseHash ipfsHash : String) (rcpt : TxReceiptData)
    (txHash : String) (startTime : Nat) (certificateUrl : String) :
    recordRun cfg requestHash responseHash ipfsHash rcpt txHash startTime
        certificateUrl { visibility := none }
      = recordRun cfg requestHash responseHash ipfsHash rcpt txHash startTime
        certificateUrl { visibility := some .PUBLIC } := rfl

end ProofClient

end ProofSDK

